import Mathlib

/-!
Verification development for the s390x-wheel-refinery repository.

The Python sources are shallowly embedded as executable Lean definitions:
pure functions become Lean functions, stateful code threads an explicit
state value, fallible code returns `Except`, and the effects relevant to
the properties under study (recorded history events, sleeps, log files,
copies to the output directory) are accumulated in explicit trace fields.
External subprocess executions and the filesystem are abstracted by
oracle parameters supplied to each run.

The third-party `packaging` library (an external collaborator of the
repository) is modelled on the fragment the repository exercises:
versions are PEP 440 release-segment tuples (`List Nat`, compared after
padding with zeros), `packaging.tags.Tag` is a record with fields
`interpreter`, `abi` and `platform` (its actual public attributes; the
class is slotted and has no attribute named `python`), and requirement
specifiers carry an operator and a version string.

Python attribute errors matter for several properties and are modelled
faithfully: an access to an attribute that does not exist on the object
is embedded as an `Except.error` carrying the missing attribute name.
-/

namespace Refinery

/-- Model of Python `str.lower()` on the ASCII names this system
handles, written structurally over the character list. -/
def lowerStr (s : String) : String :=
  ⟨s.data.map Char.toLower⟩

/-! ## Versions: model of `packaging.version.Version` (release segments) -/

/-- A version is its list of release segments, e.g. `1.2.0` is `[1, 2, 0]`.
PEP 440 equality and ordering compare release tuples after padding the
shorter tuple with zeros. -/
abbrev Ver := List Nat

/-- Drop trailing zero segments: `[1,2,0] ↦ [1,2]`.  Two release tuples are
PEP 440 equal iff they agree after removing trailing zeros. -/
def verNorm (v : Ver) : Ver :=
  (v.reverse.dropWhile (· == 0)).reverse

/-- PEP 440 version equality (zero-padded segment comparison). -/
def verEq (a b : Ver) : Bool :=
  verNorm a == verNorm b

/-- Pad a release tuple with zeros up to length `n`. -/
def padTo (n : Nat) (v : Ver) : Ver :=
  v ++ List.replicate (n - v.length) 0

/-- Strict lexicographic order on equal-length segment lists. -/
def lexLt : List Nat → List Nat → Bool
  | [], [] => false
  | [], _ :: _ => true
  | _ :: _, [] => false
  | a :: as, b :: bs =>
    if a < b then true
    else if b < a then false
    else lexLt as bs

/-- PEP 440 strict ordering on release tuples: lexicographic after padding
both tuples with zeros to a common length. -/
def verLt (a b : Ver) : Bool :=
  lexLt (padTo (max a.length b.length) a) (padTo (max a.length b.length) b)

/-- One dot-separated segment: a non-empty run of decimal digits. -/
def parseSeg (cs : List Char) : Option Nat :=
  if cs ≠ [] ∧ cs.all Char.isDigit then
    some (cs.foldl (fun n c => n * 10 + (c.toNat - 48)) 0)
  else
    none

/-- Split a character list on a separator character. -/
def splitChar (sep : Char) (cs : List Char) : List (List Char) :=
  match cs with
  | [] => [[]]
  | c :: rest =>
    let r := splitChar sep rest
    if c == sep then [] :: r
    else match r with
      | [] => [[c]]
      | seg :: segs => (c :: seg) :: segs

/-- Model of `packaging.version.Version(s)` restricted to plain release
strings such as `"1.0.0"`.  Returns `none` where the library raises
`InvalidVersion`. -/
def parseVer (s : String) : Option Ver :=
  (splitChar '.' s.data).mapM parseSeg

/-- Model of `str(version)` for a parsed release tuple. -/
def verToString (v : Ver) : String :=
  String.intercalate "." (v.map (fun n => Nat.repr n))

/-! ## Requirements: model of `packaging.requirements.Requirement` -/

inductive SpecOp where
  | eq            -- "=="
  | arbitraryEq   -- "==="
  | ne            -- "!="
  | le            -- "<="
  | ge            -- ">="
  | lt            -- "<"
  | gt            -- ">"
deriving Repr, DecidableEq

structure Spec where
  op : SpecOp
  version : String
deriving Repr, DecidableEq

structure Requirement where
  name : String
  specifier : List Spec
deriving Repr, DecidableEq

/-- Model of `Specifier.contains(v, prereleases=True)` on the release
fragment.  `==`/`!=` compare zero-padded release tuples; `===` compares
the canonical string form against the specifier text (lowercased);
ordering operators use the padded lexicographic order. -/
def specContains (s : Spec) (v : Ver) : Bool :=
  match s.op with
  | .eq => match parseVer s.version with
    | some w => verEq v w
    | none => false
  | .arbitraryEq => verToString v == lowerStr s.version
  | .ne => match parseVer s.version with
    | some w => !(verEq v w)
    | none => false
  | .le => match parseVer s.version with
    | some w => verLt v w || verEq v w
    | none => false
  | .ge => match parseVer s.version with
    | some w => verLt w v || verEq v w
    | none => false
  | .lt => match parseVer s.version with
    | some w => verLt v w
    | none => false
  | .gt => match parseVer s.version with
    | some w => verLt w v
    | none => false

/-- Model of `SpecifierSet.contains`: every specifier must accept. -/
def reqContains (r : Requirement) (v : Ver) : Bool :=
  r.specifier.all (fun s => specContains s v)

/-- Model of `str(req)` (only used as an opaque reporting string). -/
def reqStr (r : Requirement) : String :=
  r.name ++ String.join (r.specifier.map (fun s =>
    (match s.op with
     | .eq => "=="
     | .arbitraryEq => "==="
     | .ne => "!="
     | .le => "<="
     | .ge => ">="
     | .lt => "<"
     | .gt => ">") ++ s.version))

/-! ## `packaging.tags.Tag` and `scanner.WheelInfo` -/

/-- `packaging.tags.Tag` exposes exactly the attributes `interpreter`,
`abi` and `platform` (the class is slotted; there is no attribute
`python`). -/
structure Tag where
  interpreter : String
  abi : String
  platform : String
deriving Repr, DecidableEq

structure WheelInfo where
  name : String
  version : String
  filename : String
  tags : List Tag
  requires_dist : List Requirement
  summary : Option String := none
deriving Repr, DecidableEq

namespace WheelInfo

/-- `scanner.WheelInfo.is_pure_python`:
`any(tag.platform == "any" for tag in self.tags)`. -/
def is_pure_python (w : WheelInfo) : Bool :=
  w.tags.any (fun t => t.platform == "any")

/-- `scanner.WheelInfo.supports`.  The source reads `tag.python`, an
attribute `packaging.tags.Tag` does not have, so the first loop
iteration raises `AttributeError`; the function returns `False` only
when the tag set is empty (the loop body never runs). -/
def supports (w : WheelInfo) (python_tag platform_tag : String) : Except String Bool :=
  match w.tags, python_tag, platform_tag with
  | [], _, _ => .ok false
  | _ :: _, _, _ => .error "AttributeError: python"

end WheelInfo

/-- The tag predicate `WheelInfo.supports` was evidently meant to compute
for a single tag, written from the spec for comparison purposes.
Modelled from the spec: "some tag's interpreter component equals the
target or is a generic py3 family marker, AND the tag's platform
component is any, exactly equal, or both belong to the same architecture
family (a fixed suffix match)". -/
def supportsTagSpec (python_tag platform_tag : String) (t : Tag) : Bool :=
  (t.interpreter == python_tag || t.interpreter == "py3"
      || t.interpreter.startsWith "py3")
  && (t.platform == "any" || t.platform == platform_tag
      || (t.platform.endsWith "_s390x" && platform_tag.endsWith "_s390x"))

/-! ## `scanner.scan_wheels`

`scan_wheels` reads each `*.whl` file of a directory through
`read_wheel_metadata`; we abstract the filesystem and the external
filename/metadata parsing as the list of per-file outcomes (`none` when
`read_wheel_metadata` raises, e.g. on an invalid wheel filename). -/

/-- `scanner.scan_wheels`: each file whose metadata read raises is caught,
logged and skipped; the remaining wheels are returned in order. -/
def scanWheels (files : List (Option WheelInfo)) : List WheelInfo :=
  files.filterMap id

/-- Modelled from the spec: "classification errors — unparsable
version/filename: fatal, aborts the run".  A scan under that sentence
would abort on the first file whose name or metadata cannot be parsed. -/
def scanWheelsSpec (files : List (Option WheelInfo)) : Except String (List WheelInfo) :=
  match files with
  | [] => .ok []
  | none :: _ => .error "classification error: unparsable artifact"
  | some w :: rest => (scanWheelsSpec rest).map (fun l => w :: l)

/-! ## `models.py` -/

/-- `models.BuildJob`.  These are exactly the fields the dataclass
declares: there is no `resource_cpu`, `resource_mem` or `children`
field, although `scheduler.py`, `builder.py` and `cli.py` access such
attributes. -/
structure BuildJob where
  name : String
  version : String
  python_tag : String
  platform_tag : String
  source_spec : String
  reason : String
  depth : Nat := 0
  parents : List String := []
deriving Repr, DecidableEq

structure ReusableWheel where
  name : String
  version : String
  path : String
deriving Repr, DecidableEq

structure Plan where
  reusable : List ReusableWheel := []
  to_build : List BuildJob := []
  missing_requirements : List String := []
  dependency_expansions : List BuildJob := []
deriving Repr, DecidableEq

structure ManifestEntry where
  name : String
  version : String
  status : String
  path : Option String := none
  detail : Option String := none
deriving Repr, DecidableEq

/-! ## `config.py` (the configuration value object) -/

inductive UpgradeStrategy where
  | pinned
  | eager
deriving Repr, DecidableEq

structure PackageOverride where
  system_packages : List String := []
  system_recipe : List String := []
  env : List (String × String) := []
  notes : Option String := none
deriving Repr, DecidableEq

/-- `config.RefineryConfig`, restricted to the fields the embedded
functions consult (index settings and container fields only shape the
external command lines, which the oracles abstract). -/
structure RefineryConfig where
  python_tag : String
  target_platform_tag : String := "manylinux2014_s390x"
  upgrade_strategy : UpgradeStrategy := .pinned
  overrides : List (String × PackageOverride) := []
  allow_system_recipes : Bool := true
  dry_run_recipes : Bool := false
  max_attempts : Nat := 3
  attempt_timeout : Nat := 900
  attempt_backoff_base : Nat := 5
  attempt_backoff_max : Nat := 60
  auto_apply_suggestions : Bool := false
  fallback_latest : Bool := false
deriving Repr, DecidableEq

/-- Association-list lookup modelling `dict.get`. -/
def dictGet {κ α : Type} [BEq κ] (m : List (κ × α)) (k : κ) : Option α :=
  (m.find? (fun p => p.1 == k)).map (·.2)

/-- `dict.__setitem__` / in-place value update at a key: replaces the
value at the first matching key, else appends the binding. -/
def dictSet {κ α : Type} [BEq κ] (m : List (κ × α)) (k : κ) (v : α) : List (κ × α) :=
  match m with
  | [] => [(k, v)]
  | (k', v') :: rest =>
    if k' == k then (k, v) :: rest else (k', v') :: dictSet rest k v

/-! ## `resolver.py` -/

/-- A `Dict[str, Set[Version]]` from the resolver, as an association
list; `add` keeps set semantics under PEP 440 version equality. -/
abbrev VerSets := List (String × List Ver)

def verSetAdd (sets : VerSets) (name : String) (v : Ver) : VerSets :=
  let cur := (dictGet sets name).getD []
  if cur.any (fun w => verEq w v) then dictSet sets name cur
  else dictSet sets name (cur ++ [v])

def verSetGet (sets : VerSets) (name : String) : List Ver :=
  (dictGet sets name).getD []

/-- `resolver._already_planned_version`. -/
def alreadyPlannedVersion (name version : String) (jobs : List BuildJob) : Bool :=
  jobs.any (fun job => lowerStr job.name == lowerStr name && job.version == version)

/-- `resolver._collect_requirements`. -/
def collectRequirements (wheels : List WheelInfo) : List Requirement :=
  wheels.flatMap (fun w => w.requires_dist)

/-- `resolver._parse_version`: raises `ValueError` on an invalid version
string. -/
def parseVersionE (version : String) : Except String Ver :=
  match parseVer version with
  | some v => .ok v
  | none => .error ("Invalid version string: " ++ version)

/-- `resolver._merged_versions`. -/
def mergedVersions (primary secondary : List Ver) : List Ver :=
  primary ++ secondary.filter (fun v => !(primary.any (fun w => verEq w v)))

/-- `resolver._satisfies`. -/
def reqSatisfies (req : Requirement) (versions : List Ver) : Bool :=
  if versions.isEmpty then false
  else if req.specifier.isEmpty then true
  else versions.any (fun v => reqContains req v)

/-- `resolver._best_candidate`. -/
def bestCandidate (req : Requirement) (versions : List Ver) : Option Ver :=
  versions.foldl
    (fun best version =>
      if !req.specifier.isEmpty && !(reqContains req version) then best
      else match best with
        | none => some version
        | some b => if verLt b version then some version else best)
    none

/-- `resolver._pinned_version`. -/
def pinnedVersion (req : Requirement) : Option String :=
  match req.specifier with
  | [spec] =>
    if spec.op == .eq && spec.version != "" then some spec.version
    else if spec.op == .arbitraryEq && spec.version != "" then some spec.version
    else none
  | _ => none

/-- The candidate version pool of `build_plan` phase 2 (resolver.py
lines 84-91): all locally observed versions of the requirement's
normalized name, extended with the remote version list only under the
eager policy or the fallback-latest flag. -/
def candidatePool (cfg : RefineryConfig) (index_client : Option (String → List Ver))
    (all_versions : VerSets) (req : Requirement) : List Ver :=
  let candidate_versions := verSetGet all_versions (lowerStr req.name)
  match index_client with
  | some versions =>
    if cfg.upgrade_strategy == .eager then
      mergedVersions candidate_versions (versions req.name)
    else if cfg.fallback_latest then
      mergedVersions candidate_versions (versions req.name)
    else candidate_versions
  | none => candidate_versions

/-- Mutable state of `resolver.build_plan` while it runs. -/
structure ResolverState where
  plan : Plan
  reusable_versions : VerSets := []
  planned_versions : VerSets := []
  all_versions : VerSets := []
deriving Repr

/-- Phase 1 of `build_plan`, one wheel: classify it and collect its
version.  `wheel.supports` is evaluated only when the wheel is not pure
Python (Python `or` short-circuit), and raises on any non-empty tag set. -/
def classifyWheel (cfg : RefineryConfig) (st : ResolverState) (wheel : WheelInfo) :
    Except String ResolverState := do
  let version_obj ← parseVersionE wheel.version
  let normalized := lowerStr wheel.name
  let st := { st with all_versions := verSetAdd st.all_versions normalized version_obj }
  let reusable ←
    if wheel.is_pure_python then pure true
    else wheel.supports cfg.python_tag cfg.target_platform_tag
  if reusable then
    return { st with
      plan := { st.plan with reusable := st.plan.reusable ++
        [{ name := wheel.name, version := wheel.version, path := wheel.filename }] }
      reusable_versions := verSetAdd st.reusable_versions normalized version_obj }
  else if alreadyPlannedVersion wheel.name wheel.version st.plan.to_build then
    return { st with planned_versions := verSetAdd st.planned_versions normalized version_obj }
  else
    return { st with
      plan := { st.plan with to_build := st.plan.to_build ++
        [{ name := wheel.name
           version := wheel.version
           python_tag := cfg.python_tag
           platform_tag := cfg.target_platform_tag
           source_spec := wheel.name ++ "==" ++ wheel.version
           reason := "incompatible wheel" }] }
      planned_versions := verSetAdd st.planned_versions normalized version_obj }

/-- Phase 2 of `build_plan`, one requirement. -/
def resolveRequirement (cfg : RefineryConfig) (index_client : Option (String → List Ver))
    (st : ResolverState) (req : Requirement) : Except String ResolverState := do
  let normalized := lowerStr req.name
  let satisfied_versions := mergedVersions (verSetGet st.reusable_versions normalized)
    (verSetGet st.planned_versions normalized)
  if reqSatisfies req satisfied_versions then
    return st
  match pinnedVersion req with
  | some pinned =>
    if !(alreadyPlannedVersion normalized pinned st.plan.to_build) then do
      let st := { st with plan := { st.plan with to_build := st.plan.to_build ++
        [({ name := req.name
            version := pinned
            python_tag := cfg.python_tag
            platform_tag := cfg.target_platform_tag
            source_spec := req.name ++ "==" ++ pinned
            reason := "missing dependency" } : BuildJob)] } }
      let pv ← parseVersionE pinned
      return { st with planned_versions := verSetAdd st.planned_versions normalized pv }
    else
      return st
  | none =>
    match bestCandidate req (candidatePool cfg index_client st.all_versions req) with
    | some candidate =>
      if !(alreadyPlannedVersion normalized (verToString candidate) st.plan.to_build) then
        return { st with
          plan := { st.plan with to_build := st.plan.to_build ++
            [{ name := req.name
               version := verToString candidate
               python_tag := cfg.python_tag
               platform_tag := cfg.target_platform_tag
               source_spec := req.name ++ "==" ++ verToString candidate
               reason := "missing compatible wheel for requirement" }] }
          planned_versions := verSetAdd st.planned_versions normalized candidate }
      else
        return { st with plan := { st.plan with
          missing_requirements := st.plan.missing_requirements ++ [reqStr req] } }
    | none =>
      return { st with plan := { st.plan with
        missing_requirements := st.plan.missing_requirements ++ [reqStr req] } }

/-! ## `dependency_expander.py` -/

/-- Model of Python `sorted` on strings: stable insertion sort in
ascending lexicographic order. -/
def insertSorted (a : String) : List String → List String
  | [] => [a]
  | b :: bs => if a ≤ b then a :: b :: bs else b :: insertSorted a bs

def sortStrings : List String → List String
  | [] => []
  | a :: rest => insertSorted a (sortStrings rest)

/-- `dependency_expander.missing_python_deps`. -/
def missingPythonDeps (wheels : List WheelInfo) (planned : List BuildJob) : List String :=
  let planned_names := planned.map (fun job => lowerStr job.name)
  let wheel_names := wheels.map (fun w => lowerStr w.name)
  let missing := (wheels.flatMap (fun w => w.requires_dist.map (fun r => lowerStr r.name))).filter
    (fun name => !(wheel_names.contains name) && !(planned_names.contains name))
  sortStrings missing.dedup

/-- `dependency_expander.build_jobs_for_missing`. -/
def buildJobsForMissing (missing : List String) (python_tag platform_tag : String)
    (reason : String) (max_count : Nat) (depth : Nat) : List BuildJob :=
  (missing.take max_count).map (fun name =>
    { name := name
      version := "latest"
      python_tag := python_tag
      platform_tag := platform_tag
      source_spec := name
      reason := reason
      depth := depth
      parents := [] })

/-- `resolver._expand_dependencies` (iteration order of the Python
`set` of parent names is modelled as first-occurrence order). -/
def expandDependencies (plan : Plan) (wheels : List WheelInfo) (cfg : RefineryConfig)
    (index_client : Option (String → List Ver)) (max_dep_depth : Nat) (max_dep_attempts : Nat) :
    Plan :=
  if index_client.isNone || max_dep_depth == 0 then plan
  else
    let to_consider := plan.to_build.filter (fun job => job.depth < max_dep_depth)
    if to_consider.isEmpty then plan
    else
      let missing := missingPythonDeps wheels to_consider
      if missing.isEmpty then plan
      else
        let expansion_jobs := buildJobsForMissing missing cfg.python_tag
          cfg.target_platform_tag "dependency expansion" max_dep_attempts 1
        let expansion_jobs := expansion_jobs.map (fun exp =>
          { exp with parents := (to_consider.map (fun job => job.name)).dedup })
        { plan with
          dependency_expansions := plan.dependency_expansions ++ expansion_jobs
          to_build := plan.to_build ++ expansion_jobs }

/-- Modelled from the spec: "compute dependency names referenced by
in-budget to-build jobs that are absent from both scanned and planned
names".  A `BuildJob` carries no requirement list, so the dependency
names referenced by a job are read off the scanned artifact with the
job's (name, version); everything else follows the spec sentence. -/
def expandDependenciesSpec (plan : Plan) (wheels : List WheelInfo) (cfg : RefineryConfig)
    (index_client : Option (String → List Ver)) (max_dep_depth : Nat) (max_dep_attempts : Nat) :
    Plan :=
  if index_client.isNone || max_dep_depth == 0 then plan
  else
    let to_consider := plan.to_build.filter (fun job => job.depth < max_dep_depth)
    let referenced := to_consider.flatMap (fun job =>
      (wheels.filter (fun w => lowerStr w.name == lowerStr job.name
          && w.version == job.version)).flatMap
        (fun w => w.requires_dist.map (fun r => lowerStr r.name)))
    let scanned_names := wheels.map (fun w => lowerStr w.name)
    let planned_names := plan.to_build.map (fun job => lowerStr job.name)
    let missing := sortStrings ((referenced.filter (fun name =>
      !(scanned_names.contains name) && !(planned_names.contains name))).dedup)
    if to_consider.isEmpty || missing.isEmpty then plan
    else
      let expansion_jobs := buildJobsForMissing missing cfg.python_tag
        cfg.target_platform_tag "dependency expansion" max_dep_attempts 1
      let expansion_jobs := expansion_jobs.map (fun exp =>
        { exp with parents := (to_consider.map (fun job => job.name)).dedup })
      { plan with
        dependency_expansions := plan.dependency_expansions ++ expansion_jobs
        to_build := plan.to_build ++ expansion_jobs }

/-- `resolver.build_plan`. -/
def buildPlan (wheels : List WheelInfo) (cfg : RefineryConfig)
    (index_client : Option (String → List Ver) := none)
    (max_dep_depth : Nat := 2) (max_dep_attempts : Nat := 1) : Except String Plan := do
  let st0 : ResolverState := { plan := {} }
  let st1 ← wheels.foldlM (fun st w => classifyWheel cfg st w) st0
  let requirements := collectRequirements wheels
  let st2 ← requirements.foldlM (fun st r => resolveRequirement cfg index_client st r) st1
  return expandDependencies st2.plan wheels cfg index_client max_dep_depth max_dep_attempts

/-! ## `history.py`

`BuildHistory` is a SQLite table `build_events` with an auto-increment
primary key; it is modelled as the list of rows in insertion order (the
row id is the list index plus one).  The JSON metadata column is
modelled by one optional field per metadata key the repository reads
back (`variant`, `attempt`, `log_path`, `hint`, `duration`,
`duration_seconds`, `step`, `system_recipe_ran`). -/

structure EventRow where
  run_id : String
  timestamp : String := ""
  name : String
  version : String
  python_tag : String
  platform_tag : String
  status : String
  source_spec : Option String := none
  detail : Option String := none
  wheel_path : Option String := none
  cached : Bool := false
  metaVariant : Option String := none
  metaAttempt : Option Nat := none
  metaLogPath : Option String := none
  metaHint : Option String := none
  metaDuration : Option ℚ := none
  metaDurationSeconds : Option ℚ := none
  metaStep : Option String := none
  metaRecipeRan : Option Bool := none
deriving Repr, DecidableEq

abbrev HistoryDb := List EventRow

/-- `BuildHistory.record_event`: a single `INSERT`. -/
def recordEvent (db : HistoryDb) (row : EventRow) : HistoryDb :=
  db ++ [row]

/-- `BuildHistory.recent`: `SELECT * ... [WHERE status = ?] ORDER BY id
DESC LIMIT ?`. -/
def historyRecent (db : HistoryDb) (limit : Nat) (status : Option String) : List EventRow :=
  let rows : List EventRow :=
    match status with
    | some s => db.filter (fun e => e.status == s)
    | none => db
  rows.reverse.take limit

structure FailureStat where
  name : String
  failures : Nat
deriving Repr, DecidableEq

/-- `BuildHistory.top_failures`: count rows per name over the given
statuses, order by count descending (grouping in first-occurrence
order), take `limit`. -/
def historyTopFailures (db : HistoryDb) (limit : Nat) (statuses : List String) :
    List FailureStat :=
  let rows := db.filter (fun e => statuses.contains e.status)
  let names := (rows.map (fun e => e.name)).dedup
  let stats := names.map (fun n =>
    { name := n, failures := (rows.filter (fun e => e.name == n)).length : FailureStat })
  (stats.mergeSort (fun a b => b.failures ≤ a.failures)).take limit

/-- `BuildHistory.variant_success_rate`: per variant of the package,
`built` rows over total rows, among rows whose metadata has a
`variant` entry. -/
def variantSuccessRate (db : HistoryDb) (name : String) : List (String × ℚ) :=
  let rows := db.filter (fun e => e.name == name && e.metaVariant.isSome)
  let variants := (rows.filterMap (fun e => e.metaVariant)).dedup
  variants.map (fun v =>
    let group := rows.filter (fun e => e.metaVariant == some v)
    let success : ℚ := (group.filter (fun e => e.status == "built")).length
    let total : ℚ := if group.length == 0 then 1 else group.length
    (v, success / total))

structure PackageSummary where
  name : String
  status_counts : List (String × Nat)
  latest : Option EventRow
  avg_duration : Option ℚ
deriving Repr, DecidableEq

/-- `BuildHistory.package_summary`. -/
def packageSummary (db : HistoryDb) (name : String) : PackageSummary :=
  let rows := db.filter (fun e => e.name == name)
  let statuses := (rows.map (fun e => e.status)).dedup
  let counts := statuses.map (fun s => (s, (rows.filter (fun e => e.status == s)).length))
  let withDur := rows.filterMap (fun (e : EventRow) => e.metaDurationSeconds)
  let avg : Option ℚ :=
    if withDur.isEmpty then none
    else some (withDur.sum / (withDur.length : ℚ))
  { name := name
    status_counts := counts
    latest := rows.reverse.head?
    avg_duration := avg }

/-- `BuildHistory.last_event`. -/
def lastEvent (db : HistoryDb) (name : String) (version : Option String) : Option EventRow :=
  (db.filter (fun e => e.name == name &&
    (match version with
     | some v => e.version == v
     | none => true))).reverse.head?

/-- The operations `BuildHistory` exposes. -/
inductive HistOp where
  | record (row : EventRow)
  | recent (limit : Nat) (status : Option String)
  | topFailures (limit : Nat) (statuses : List String)
  | variantRate (name : String)
  | pkgSummary (name : String)
  | last (name : String) (version : Option String)
deriving Repr, DecidableEq

inductive HistReply where
  | unit
  | events (rows : List EventRow)
  | failures (stats : List FailureStat)
  | rates (rates : List (String × ℚ))
  | summary (s : PackageSummary)
  | event (e : Option EventRow)
deriving Repr, DecidableEq

/-- One history-store operation: the next database state and the reply. -/
def histApply (db : HistoryDb) (op : HistOp) : HistoryDb × HistReply :=
  match op with
  | .record row => (recordEvent db row, .unit)
  | .recent limit status => (db, .events (historyRecent db limit status))
  | .topFailures limit statuses => (db, .failures (historyTopFailures db limit statuses))
  | .variantRate name => (db, .rates (variantSuccessRate db name))
  | .pkgSummary name => (db, .summary (packageSummary db name))
  | .last name version => (db, .event (lastEvent db name version))

/-! ## `scheduler.py`

`schedule_jobs` under the `shortest-first` strategy reads
`job.resource_cpu` (line 23), an attribute `models.BuildJob` does not
declare, so the first loop iteration raises `AttributeError`; only the
empty job list escapes the loop.  Any other strategy returns the jobs
unchanged. -/

def scheduleJobs (jobs : List BuildJob) (db : HistoryDb) (strategy : String) :
    Except String (List BuildJob) :=
  if strategy == "shortest-first" then
    match jobs with
    | [] => .ok []
    | job :: _ =>
      -- `_avg_duration(history, job.name)` evaluates first, then the
      -- attribute access on the job raises.
      let _ := (packageSummary db job.name).avg_duration
      .error "AttributeError: resource_cpu"
  else .ok jobs

/-! ## `builder.py`

`WheelBuilder` drives the per-job attempt state machine.  External
subprocess executions are abstracted by a `BuildWorld` oracle; the
shared artifact cache is the list of its entries (in the sorted order
`_find_cached` scans them), each carrying the outcome of
`parse_wheel_filename` on its filename (`none` where parsing raises and
the entry is skipped).

Two attribute errors of the source are modelled faithfully:
- `_hint_from_logs` and `_recipe_steps_from_hint` are written as
  methods but are indented inside the module-level function
  `_extract_sdist` (builder.py lines 608-662), so
  `self._hint_from_logs(...)` in `_run_capture` and
  `self._recipe_steps_from_hint(...)` in `build_job` /
  `_apply_suggestion` raise `AttributeError`;
- `models.BuildJob` declares no `children` field, so the metadata dict
  built for `_record_history` on the success path of `_attempt_build`
  raises `AttributeError` when evaluating `job.children`.
-/

structure BuildVariant where
  name : String
  build_isolation : Bool := true
  env_patch : List (String × String) := []
  extra_build_args : List String := []
deriving Repr, DecidableEq

/-- The Python exceptions that reach `build_job`'s control flow. -/
inductive PyExc where
  | buildAttemptError (msg : String) (log_path : String) (variant : String)
      (attempt : Nat) (hint : Option String) (duration : Option ℚ)
  | runtimeError (msg : String)
  | attributeError (attr : String)
  | calledProcessError (step : String)
deriving Repr, DecidableEq

/-- `str(exc)` as used for event details (message text only). -/
def excStr : PyExc → String
  | .buildAttemptError msg _ _ _ _ _ => msg
  | .runtimeError msg => msg
  | .attributeError attr => "object has no attribute " ++ attr
  | .calledProcessError step => "Command " ++ step ++ " returned non-zero exit status"

/-- The hint attached to an exception (`exc.hint` where the handler of
`build_job` reads it; only `BuildAttemptError` carries one). -/
def excHint : PyExc → Option String
  | .buildAttemptError _ _ _ _ h _ => h
  | _ => none

/-- Outcome of one external command run through `_run_capture`. -/
inductive CmdOutcome where
  | ok
  | fail
  | timeout
deriving Repr, DecidableEq

/-- External-world outcomes of one `_attempt_build` invocation. -/
structure AttemptIO where
  download : CmdOutcome := .ok
  sdistFound : Bool := true
  build : CmdOutcome := .ok
  foundAfterBuild : Bool := true
  builtFilename : String := ""
deriving Repr, DecidableEq

/-- Oracles for everything outside the process: recipe-step exit
statuses (by 0-based step index) and per-attempt build outcomes (by
1-based attempt index). -/
structure BuildWorld where
  recipeOk : Nat → Bool
  attempt : Nat → AttemptIO

structure CacheEntry where
  filename : String
  parsed : Option (String × String × List Tag) := none
deriving Repr, DecidableEq

/-- Start of one `_attempt_build` call, as visible in the run trace. -/
structure AttemptRecord where
  attempt : Nat
  variant : String
  override : Option PackageOverride
deriving Repr, DecidableEq

/-- The builder's shared mutable state plus the observable effect trace
of a run (recorded events, log-file writes, sleeps, copies to the
output directory, attempts started). -/
structure BuilderState where
  runId : String := "local"
  hasHistory : Bool := true
  attemptCounts : List ((String × String) × Nat) := []
  completed : List (String × String) := []
  overrides : List (String × PackageOverride) := []
  events : List EventRow := []
  logs : List String := []
  sleeps : List Nat := []
  copies : List String := []
  attemptsRun : List AttemptRecord := []
deriving Repr, DecidableEq

/-- `if self.history: self.history.record_event(...)`. -/
def recordIf (st : BuilderState) (row : EventRow) : BuilderState :=
  if st.hasHistory then { st with events := st.events ++ [row] } else st

/-- `WheelBuilder._override_for` (the overrides dict lives in the
builder state because `_apply_suggestion` mutates it). -/
def overrideFor (st : BuilderState) (job : BuildJob) : Option PackageOverride :=
  match dictGet st.overrides job.name with
  | some o => some o
  | none => dictGet st.overrides (lowerStr job.name)

/-- `WheelBuilder._detail_with_overrides`. -/
def detailWithOverrides (base : String) (override : Option PackageOverride) : String :=
  match override with
  | some o =>
    if !o.system_packages.isEmpty || !o.system_recipe.isEmpty then
      let details :=
        (if !o.system_packages.isEmpty then
          ["system packages required: " ++ String.intercalate ", " o.system_packages]
         else [])
        ++ (if !o.system_recipe.isEmpty then ["system recipe steps provided"] else [])
      base ++ " (" ++ String.intercalate "; " details ++ ")"
    else base
  | none => base

/-- The per-tag acceptance test of `WheelBuilder._find_cached`
(builder.py lines 227-234). -/
def cachedTagOk (job : BuildJob) (tag : Tag) : Bool :=
  (tag.interpreter == job.python_tag || tag.interpreter == "py3"
      || tag.interpreter.startsWith "py3")
  && (tag.platform == "any" || tag.platform == job.platform_tag
      || (tag.platform.endsWith "_s390x" && job.platform_tag.endsWith "_s390x"))

/-- The whole-entry acceptance test of `WheelBuilder._find_cached`: the
parse succeeded, the parsed name/version match the job, and one of the
parsed tags passes `cachedTagOk`. -/
def cacheMatches (job : BuildJob) (entry : CacheEntry) : Bool :=
  match entry.parsed with
  | none => false
  | some (name, version, tags) =>
    lowerStr name == lowerStr job.name && version == job.version
      && tags.any (fun tag => cachedTagOk job tag)

/-- `WheelBuilder._find_cached`: first cache entry (in sorted filename
order) accepted by `cacheMatches`. -/
def findCached (cache : List CacheEntry) (job : BuildJob) : Option CacheEntry :=
  cache.find? (fun entry => cacheMatches job entry)

/-- The fixed base variant list of `WheelBuilder._variants`. -/
def baseVariants : List BuildVariant :=
  [ { name := "default", build_isolation := true },
    { name := "no_isolation", build_isolation := false },
    { name := "arch_tweak", build_isolation := false,
      env_patch := [("CFLAGS", "-fno-semantic-interposition")] } ]

/-- `WheelBuilder._variants`: re-rank (stable sort) by descending
historical per-variant success rate when a history store is attached
and reports any rate. -/
def variantsFor (st : BuilderState) (package_name : String) : List BuildVariant :=
  if st.hasHistory then
    let rates := variantSuccessRate st.events package_name
    if rates.isEmpty then baseVariants
    else baseVariants.mergeSort (fun a b =>
      decide (-((dictGet rates a.name).getD 0) ≤ -((dictGet rates b.name).getD 0)))
  else baseVariants

/-- The `Suggest install:` branch of `_apply_suggestion` (builder.py
lines 579-583): append the suggested package when it is not already in
the override's package list. -/
def applyHintPackages (o : PackageOverride) (hint : String) : PackageOverride :=
  if (hint.splitOn "Suggest install:").length > 1 then
    let suggestion := ((hint.splitOn "Suggest install:").getLastD "").trim
    if !(o.system_packages.contains suggestion) then
      { o with system_packages := o.system_packages ++ [suggestion] }
    else o
  else o

/-- `WheelBuilder._apply_suggestion`.  After creating the override if
absent and appending a `Suggest install:` package not already present,
the loop head calls `self._recipe_steps_from_hint`, which is not an
attribute of `WheelBuilder`, so the call raises; the mutations made
before the raise persist in the overrides dict. -/
def applySuggestion (overrides : List (String × PackageOverride)) (jobName hint : String) :
    (List (String × PackageOverride)) × PyExc :=
  let key : String :=
    if (dictGet overrides jobName).isSome then jobName
    else if (dictGet overrides (lowerStr jobName)).isSome then lowerStr jobName
    else jobName
  let base : List (String × PackageOverride) :=
    if (dictGet overrides jobName).isSome || (dictGet overrides (lowerStr jobName)).isSome then
      overrides
    else dictSet overrides jobName {}
  let o := (dictGet base key).getD {}
  (dictSet base key (applyHintPackages o hint), .attributeError "_recipe_steps_from_hint")

/-- `WheelBuilder._run_system_recipe`, executed steps: each successful
step records a `system_recipe_ran` event; the first failing step
records `system_recipe_failed` and raises. -/
def runRecipeSteps (st : BuilderState) (job : BuildJob) (w : BuildWorld) :
    List String → Nat → Except PyExc Bool × BuilderState
  | [], _ => (.ok true, st)
  | step :: rest, i =>
    if w.recipeOk i then
      let st := recordIf st
        { run_id := st.runId, name := job.name, version := job.version
          python_tag := job.python_tag, platform_tag := job.platform_tag
          status := "system_recipe_ran", source_spec := some job.source_spec
          detail := some ("Step succeeded: " ++ step), metaStep := some step }
      runRecipeSteps st job w rest (i + 1)
    else
      let st := recordIf st
        { run_id := st.runId, name := job.name, version := job.version
          python_tag := job.python_tag, platform_tag := job.platform_tag
          status := "system_recipe_failed", source_spec := some job.source_spec
          detail := some (excStr (.calledProcessError step)), metaStep := some step }
      (.error (.calledProcessError step), st)

/-- `WheelBuilder._run_system_recipe`. -/
def runSystemRecipe (cfg : RefineryConfig) (st : BuilderState) (job : BuildJob)
    (override : PackageOverride) (w : BuildWorld) : Except PyExc Bool × BuilderState :=
  if !cfg.allow_system_recipes then (.ok false, st)
  else if cfg.dry_run_recipes then (.ok false, st)
  else runRecipeSteps st job w override.system_recipe 0

def timeoutHint : String := "Increase attempt timeout or check hanging build step"

/-- `WheelBuilder._run_capture` for one external command: appends to
the step-scoped log, then returns, raises the distinguished timeout
`BuildAttemptError` carrying the canned hint, or — on a non-zero exit —
evaluates `self._hint_from_logs(...)`, which is not an attribute of
`WheelBuilder`, raising `AttributeError` before any `BuildAttemptError`
can be built. -/
def runCapture (cfg : RefineryConfig) (st : BuilderState) (outcome : CmdOutcome)
    (log_path step variant_name : String) (attempt : Nat) :
    Except PyExc Unit × BuilderState :=
  let st := { st with logs := st.logs ++ [log_path] }
  match outcome with
  | .timeout =>
    (.error (.buildAttemptError
      (step ++ " timed out after " ++ Nat.repr cfg.attempt_timeout ++ "s")
      log_path variant_name attempt (some timeoutHint) (some (cfg.attempt_timeout : ℚ))), st)
  | .fail => (.error (.attributeError "_hint_from_logs"), st)
  | .ok => (.ok (), st)

/-- `WheelBuilder._attempt_build`.  On a fully successful external
build the method copies the wheel out, bumps the attempt counter and
then evaluates `job.children` for the history metadata — a field
`models.BuildJob` does not declare — so it raises `AttributeError`
instead of returning the built entry. -/
def attemptBuild (cfg : RefineryConfig) (st : BuilderState) (job : BuildJob)
    (override : Option PackageOverride) (io : AttemptIO) (variant : BuildVariant)
    (attempt : Nat) : Except PyExc ManifestEntry × BuilderState :=
  let st := { st with attemptsRun := st.attemptsRun ++
    [{ attempt := attempt, variant := variant.name, override := override }] }
  let log_path := job.name ++ "-" ++ job.version ++ "-attempt" ++ Nat.repr attempt
      ++ "-" ++ variant.name ++ ".log"
  match runCapture cfg st io.download log_path "download" variant.name attempt with
  | (.error e, st) => (.error e, st)
  | (.ok _, st) =>
    if !io.sdistFound then
      (.error (.runtimeError ("No sdist found for " ++ job.source_spec)), st)
    else
      match runCapture cfg st io.build log_path "build" variant.name attempt with
      | (.error e, st) => (.error e, st)
      | (.ok _, st) =>
        if !io.foundAfterBuild then
          (.error (.runtimeError ("Build finished but wheel not found for "
              ++ job.name ++ "==" ++ job.version)), st)
        else
          let st := { st with copies := st.copies ++ [io.builtFilename] }
          let st := { st with
            attemptCounts := dictSet st.attemptCounts (lowerStr job.name, job.version) attempt }
          (.error (.attributeError "children"), st)

/-- `min(backoff_max, backoff_base * 2 ** (attempt - 1))`. -/
def backoffDelay (cfg : RefineryConfig) (attempt : Nat) : Nat :=
  min cfg.attempt_backoff_max (cfg.attempt_backoff_base * 2 ^ (attempt - 1))

/-- How the attempt loop of `build_job` ends. -/
inductive LoopExit where
  | returned (entry : ManifestEntry)
  | raised (e : PyExc)
  | exhausted (last_error : Option PyExc) (last_hint_steps : List String)
deriving Repr, DecidableEq

/-- The `(log_path, variant_name, hint, duration)` extraction of
`build_job`'s failure handler (builder.py lines 149-157): the richer
fields are available only on `BuildAttemptError`. -/
def excInfo (exc : PyExc) (variantName : String) :
    Option String × String × Option String × Option ℚ :=
  match exc with
  | .buildAttemptError _ lp vn _ h d => (some lp, vn, h, d)
  | _ => (none, variantName, none, none)

/-- The `failed_attempt` event row recorded by `build_job`'s failure
handler (builder.py lines 162-179). -/
def failedRow (runId : String) (job : BuildJob) (exc : PyExc) (variantName : String)
    (attempt : Nat) : EventRow :=
  let info := excInfo exc variantName
  { run_id := runId, name := job.name, version := job.version
    python_tag := job.python_tag, platform_tag := job.platform_tag
    status := "failed_attempt", source_spec := some job.source_spec
    detail := some (excStr exc), metaVariant := some info.2.1
    metaAttempt := some attempt, metaLogPath := info.1
    metaHint := info.2.2.1, metaDuration := info.2.2.2 }

/-- The attempt loop of `build_job` (builder.py lines 141-196).
`attempt` is the next 1-based attempt index, `remaining` the number of
attempts still to run, `total` the loop bound `max(1, max_attempts)`.
In the failure handler, a hint on the exception leads into
`self._recipe_steps_from_hint` (after `_apply_suggestion` when
auto-apply is on), which raises `AttributeError` out of `build_job`
before the attempt's event is recorded. -/
def buildLoop (cfg : RefineryConfig) (w : BuildWorld) (job : BuildJob)
    (override : Option PackageOverride) (variants : List BuildVariant) (total : Nat) :
    Nat → Nat → BuilderState → Option PyExc → List String → LoopExit × BuilderState
  | _, 0, st, lastError, lastHintSteps => (.exhausted lastError lastHintSteps, st)
  | attempt, remaining + 1, st, _, lastHintSteps =>
    let variant := variants.getD (min (attempt - 1) (variants.length - 1)) { name := "" }
    match attemptBuild cfg st job override (w.attempt attempt) variant attempt with
    | (.ok entry, st) => (.returned entry, st)
    | (.error exc, st) =>
      let hint := (excInfo exc variant.name).2.2.1
      if hint.isSome && cfg.auto_apply_suggestions then
        let applied := applySuggestion st.overrides job.name (hint.getD "")
        (.raised applied.2, { st with overrides := applied.1 })
      else if hint.isSome then
        (.raised (.attributeError "_recipe_steps_from_hint"), st)
      else
        let st := recordIf st (failedRow st.runId job exc variant.name attempt)
        let st := { st with sleeps := st.sleeps ++
          (if attempt < total then [backoffDelay cfg attempt] else []) }
        buildLoop cfg w job override variants total (attempt + 1) remaining st
          (some exc) lastHintSteps

/-- The override synthesis of the hint retry (builder.py lines 200-203):
deep-copy the override, or start fresh, and append each hint-derived
step not already present. -/
def layerSteps (base : PackageOverride) (steps : List String) : PackageOverride :=
  steps.foldl (fun o step =>
    if !(o.system_recipe.contains step) then
      { o with system_recipe := o.system_recipe ++ [step] }
    else o) base

/-- `WheelBuilder.build_job`.  The result carries the manifest entry and
the `cached` flag of `BuildResult`. -/
def buildJob (cfg : RefineryConfig) (st : BuilderState) (job : BuildJob)
    (cache : List CacheEntry) (w : BuildWorld) :
    Except PyExc (ManifestEntry × Bool) × BuilderState :=
  let key := (lowerStr job.name, job.version)
  let attempts0 := (dictGet st.attemptCounts key).getD 0
  if attempts0 ≥ cfg.max_attempts then
    (.error (.runtimeError ("Exceeded max attempts for " ++ job.name ++ "==" ++ job.version)),
      st)
  else
    let override := overrideFor st job
    let recipeRes : Except PyExc Bool × BuilderState :=
      match override with
      | some o =>
        if !o.system_recipe.isEmpty then runSystemRecipe cfg st job o w else (.ok false, st)
      | none => (.ok false, st)
    match recipeRes with
    | (.error e, st) => (.error e, st)
    | (.ok recipe_ran, st) =>
      match findCached cache job with
      | some entry =>
        let st := { st with copies := st.copies ++ [entry.filename] }
        let mentry : ManifestEntry :=
          { name := job.name, version := job.version, status := "cached"
            path := some entry.filename
            detail := some (detailWithOverrides "Reused cached wheel" override) }
        let st := recordIf st
          { run_id := st.runId, name := job.name, version := job.version
            python_tag := job.python_tag, platform_tag := job.platform_tag
            status := "cached", source_spec := some job.source_spec
            detail := mentry.detail, wheel_path := mentry.path, cached := true
            metaRecipeRan := some recipe_ran }
        (.ok (mentry, true), st)
      | none =>
        let variants := variantsFor st job.name
        let total := max 1 cfg.max_attempts
        match buildLoop cfg w job override variants total 1 total st none [] with
        | (.returned entry, st) => (.ok (entry, false), st)
        | (.raised e, st) => (.error e, st)
        | (.exhausted lastError lastHintSteps, st) =>
          let exhaustedMsg := "Exhausted " ++ Nat.repr total ++ " attempts for "
              ++ job.source_spec
          if lastError.isSome && !lastHintSteps.isEmpty then
            let temp := layerSteps ((override).getD {}) lastHintSteps
            match attemptBuild cfg st job (some temp) (w.attempt (total + 1))
                (variants.getD 0 { name := "" }) (total + 1) with
            | (.ok entry, st) => (.ok (entry, false), st)
            | (.error _, st) => (.error (.runtimeError exhaustedMsg), st)
          else
            (.error (.runtimeError exhaustedMsg), st)

/-! ## Concrete instances used in the claim analyses -/

def exampleConfig : RefineryConfig := { python_tag := "cp311" }

/-- The universal wheel of the repository's own resolver test. -/
def examplePureWheel : WheelInfo :=
  { name := "purepkg"
    version := "1.0.0"
    filename := "purepkg-1.0.0-py3-none-any.whl"
    tags := [{ interpreter := "py3", abi := "none", platform := "any" }]
    requires_dist := [] }

/-- The architecture-incompatible wheel of the repository's own
resolver test, requiring `dep==1.0.0`. -/
def exampleNativeWheel : WheelInfo :=
  { name := "nativepkg"
    version := "1.0.0"
    filename := "nativepkg-1.0.0-cp311-cp311-manylinux2014_x86_64.whl"
    tags := [{ interpreter := "cp311", abi := "cp311", platform := "manylinux2014_x86_64" }]
    requires_dist := [{ name := "dep", specifier := [{ op := .eq, version := "1.0.0" }] }] }

def exampleJob : BuildJob :=
  { name := "nativepkg"
    version := "1.0.0"
    python_tag := "cp311"
    platform_tag := "manylinux2014_s390x"
    source_spec := "nativepkg==1.0.0"
    reason := "incompatible wheel" }

/-- Every attempt fails with a non-zero exit of the download command. -/
def exampleWorldAllFail : BuildWorld :=
  { recipeOk := fun _ => true
    attempt := fun _ => { download := .fail } }

/-- Attempts 1 and 2 fail with non-zero exits; attempt 3 times out (the
only failure kind that reaches `build_job` carrying a hint). -/
def exampleWorldTimeoutLast : BuildWorld :=
  { recipeOk := fun _ => true
    attempt := fun k => if k == 3 then { download := .timeout } else { download := .fail } }

/-- A cache entry whose parsed name, version and tags match
`exampleJob`'s target. -/
def exampleCacheEntry : CacheEntry :=
  { filename := "nativepkg-1.0.0-cp311-cp311-manylinux2014_s390x.whl"
    parsed := some ("nativepkg", "1.0.0",
      [{ interpreter := "cp311", abi := "cp311", platform := "manylinux2014_s390x" }]) }

/-- The wheel a matching cache entry stands for, as the scanner would
describe it. -/
def exampleCachedWheel : WheelInfo :=
  { name := "nativepkg"
    version := "1.0.0"
    filename := "nativepkg-1.0.0-cp311-cp311-manylinux2014_s390x.whl"
    tags := [{ interpreter := "cp311", abi := "cp311", platform := "manylinux2014_s390x" }]
    requires_dist := [] }

/-- The two jobs of the repository's scheduler test (depths 0 and 1). -/
def exampleFastJob : BuildJob :=
  { name := "fastpkg", version := "1.0", python_tag := "cp311"
    platform_tag := "manylinux2014_s390x", source_spec := "", reason := "", depth := 0 }

def exampleSlowJob : BuildJob :=
  { name := "slowpkg", version := "1.0", python_tag := "cp311"
    platform_tag := "manylinux2014_s390x", source_spec := "", reason := "", depth := 1 }

/-- The recorded durations of the scheduler test: 1s for `fastpkg`,
10s for `slowpkg`. -/
def exampleHistoryDb : HistoryDb :=
  [ { run_id := "run", name := "fastpkg", version := "1.0", python_tag := "cp311"
      platform_tag := "manylinux2014_s390x", status := "built", metaDurationSeconds := some 1 },
    { run_id := "run", name := "slowpkg", version := "1.0", python_tag := "cp311"
      platform_tag := "manylinux2014_s390x", status := "built", metaDurationSeconds := some 10 } ]

/-- A pure-Python wheel that declares a requirement on the absent
project `xdep` (used for dependency expansion). -/
def exampleReqWheel : WheelInfo :=
  { name := "libfoo"
    version := "2.0"
    filename := "libfoo-2.0-py3-none-any.whl"
    tags := [{ interpreter := "py3", abi := "none", platform := "any" }]
    requires_dist := [{ name := "xdep", specifier := [] }] }

/-- A plan holding one root build job that references no dependency. -/
def examplePlanOneJob : Plan := { to_build := [exampleJob] }

def exampleIndexFn : String → List Ver := fun _ => []

/-- An artifact whose version string cannot be parsed. -/
def exampleBadWheel : WheelInfo :=
  { name := "badpkg"
    version := "abc"
    filename := "badpkg-abc-py3-none-any.whl"
    tags := []
    requires_dist := [] }

/-- A requirement no local or remote version satisfies. -/
def exampleUnsatReq : Requirement :=
  { name := "dep2", specifier := [{ op := .ge, version := "2.0" }] }

def exampleSuggestHint : String := "Missing libssl. Suggest install: openssl-devel"

/-- An `_attempt_build` invocation that fails without reaching the
success path and without a timeout: non-zero download exit, missing
source archive, non-zero build exit, or wheel absent after the build.
These are exactly the failures whose exception reaches `build_job`'s
handler without a hint attached. -/
def attemptFailsNoHint (io : AttemptIO) : Prop :=
  io.download = .fail
  ∨ (io.download = .ok ∧ io.sdistFound = false)
  ∨ (io.download = .ok ∧ io.sdistFound = true ∧ io.build = .fail)
  ∨ (io.download = .ok ∧ io.sdistFound = true ∧ io.build = .ok ∧ io.foundAfterBuild = false)

/-! ## Claim analyses -/

/-- C3 (counter-evidence for the code): at the repository's own
resolver-test input — one universal wheel plus one incompatible wheel
requiring `dep==1.0.0` — `build_plan` does not produce a plan with the
pinned missing-dependency job: classifying the non-pure wheel calls
`WheelInfo.supports`, which reads the non-existent `tag.python`
attribute of `packaging.tags.Tag`, so resolution raises
`AttributeError`. -/
theorem C3_buildPlan_attributeError :
    buildPlan [examplePureWheel, exampleNativeWheel] exampleConfig
      = .error "AttributeError: python" := by
  rfl

/-- C5 (counter-evidence for the code): at the repository's own
scheduler-test input (depth-0 `fastpkg`, depth-1 `slowpkg`, average
durations 1s and 10s on record), `schedule_jobs` with strategy
`shortest-first` raises `AttributeError` when reading
`job.resource_cpu`, a field `models.BuildJob` does not declare, instead
of returning the jobs sorted by the composite key. -/
theorem C5_scheduler_attributeError :
    scheduleJobs [exampleFastJob, exampleSlowJob] exampleHistoryDb "shortest-first"
      = .error "AttributeError: resource_cpu" := by
  rfl

/-- C1 counterexample: max attempts is 3, every attempt fails, and the
final failure is the timeout — the only failure that reaches
`build_job` carrying a (canned, actionable per the spec's wording)
hint.  The claim then demands exactly 3 recorded attempt-failure
events plus one hint-retry attempt event; instead `build_job` aborts
with `AttributeError` while handling the hint and only the first two
attempts' failure events are recorded. -/
theorem C1_counterexample :
    (buildJob exampleConfig {} exampleJob [] exampleWorldTimeoutLast).1
      = .error (.attributeError "_recipe_steps_from_hint")
    ∧ ((buildJob exampleConfig {} exampleJob [] exampleWorldTimeoutLast).2.events.filter
        (fun e => e.status == "failed_attempt")).length = 2
    ∧ ¬ (((buildJob exampleConfig {} exampleJob [] exampleWorldTimeoutLast).2.events.filter
        (fun e => e.status == "failed_attempt")).length = 3) := by
  refine ⟨rfl, rfl, by decide⟩

/-- C2 (counter-evidence for the code): with max attempts 3 and every
attempt failing on a non-zero exit (the situation in which the hint
catalog should produce the hint that grants the one extra retry), no
recorded failure carries a hint — `_run_capture` raises
`AttributeError` at `self._hint_from_logs` before a hint can be
derived, because that function is nested inside `_extract_sdist`
instead of being a `WheelBuilder` method — so exactly the 3 configured
attempts run and the hint-derived retry never executes. -/
theorem C2_hint_retry_unreachable :
    (buildJob exampleConfig {} exampleJob [] exampleWorldAllFail).1
      = .error (.runtimeError "Exhausted 3 attempts for nativepkg==1.0.0")
    ∧ ((buildJob exampleConfig {} exampleJob [] exampleWorldAllFail).2.attemptsRun.map
        (fun r => r.attempt)) = [1, 2, 3]
    ∧ ((buildJob exampleConfig {} exampleJob [] exampleWorldAllFail).2.events.map
        (fun e => e.metaHint)) = [none, none, none] := by
  refine ⟨rfl, rfl, rfl⟩

/-- C7 counterexample: an artifact whose filename cannot be parsed is
not fatal: `scan_wheels` catches the error, logs and skips the file,
and the scan returns the remaining wheels, where the spec sentence
would have the run abort. -/
theorem C7_counterexample :
    scanWheels [some examplePureWheel, none] = [examplePureWheel]
    ∧ scanWheelsSpec [some examplePureWheel, none]
        = .error "classification error: unparsable artifact" := by
  refine ⟨rfl, rfl⟩

/-- C9 counterexample: with one to-build job that references no
dependency and one reusable scanned wheel requiring the absent `xdep`,
the claim's reading (dependency names referenced by in-budget to-build
jobs) synthesizes nothing, but `_expand_dependencies` synthesizes an
`xdep` job: it collects requirement names from all scanned artifacts,
not from the to-build jobs. -/
theorem C9_counterexample :
    ((expandDependencies examplePlanOneJob [exampleReqWheel] exampleConfig
        (some exampleIndexFn) 2 1).to_build.map (fun j => j.name)) = ["nativepkg", "xdep"]
    ∧ ((expandDependenciesSpec examplePlanOneJob [exampleReqWheel] exampleConfig
        (some exampleIndexFn) 2 1).to_build.map (fun j => j.name)) = ["nativepkg"] := by
  refine ⟨rfl, rfl⟩

/-- C10: every history-store operation either appends one new event
row (`record_event`, a single `INSERT` into the auto-increment log) or
leaves the row list untouched (the read-only queries); no operation
updates or deletes an existing row.  Each reply of `histApply` is
computed from the row list alone, so all aggregates are functions of
the appended event sequence. -/
theorem C10_history_append_only (db : HistoryDb) (op : HistOp) :
    (histApply db op).1 =
      (match op with
       | .record row => db ++ [row]
       | _ => db) := by
  cases op <;> rfl

theorem dictGet_dictSet_self {κ α : Type} [BEq κ] [LawfulBEq κ]
    (m : List (κ × α)) (k : κ) (v : α) : dictGet (dictSet m k v) k = some v := by
  induction m with
  | nil => simp [dictGet, dictSet, List.find?]
  | cons p rest ih =>
    by_cases h : (p.1 == k) = true
    · simp [dictGet, dictSet, List.find?, h]
    · have h' : (p.1 == k) = false := by simpa using h
      calc dictGet (dictSet (p :: rest) k v) k
          = dictGet (p :: dictSet rest k v) k := by simp [dictSet, h']
        _ = dictGet (dictSet rest k v) k := by simp [dictGet, List.find?, h']
        _ = some v := ih

theorem dictGet_dictSet_ne {κ α : Type} [BEq κ] [LawfulBEq κ]
    (m : List (κ × α)) (k k' : κ) (v : α) (h : (k' == k) = false) :
    dictGet (dictSet m k v) k' = dictGet m k' := by
  have hne : k' ≠ k := beq_eq_false_iff_ne.mp h
  have hkk : (k == k') = false := beq_eq_false_iff_ne.mpr (fun hkk => hne hkk.symm)
  induction m with
  | nil => simp [dictGet, dictSet, List.find?, hkk]
  | cons p rest ih =>
    by_cases hp : (p.1 == k) = true
    · have hp' : p.1 = k := by simpa using hp
      simp [dictGet, dictSet, List.find?, hp, hp', hkk]
    · have hpf : (p.1 == k) = false := by simpa using hp
      by_cases hq : (p.1 == k') = true
      · simp [dictGet, dictSet, List.find?, hpf, hq]
      · have hqf : (p.1 == k') = false := by simpa using hq
        calc dictGet (dictSet (p :: rest) k v) k'
            = dictGet (p :: dictSet rest k v) k' := by simp [dictSet, hpf]
          _ = dictGet (dictSet rest k v) k' := by simp [dictGet, List.find?, hqf]
          _ = dictGet rest k' := ih
          _ = dictGet (p :: rest) k' := by simp [dictGet, List.find?, hqf]

theorem dictSet_get_eq {κ α : Type} [BEq κ] [LawfulBEq κ]
    (m : List (κ × α)) (k : κ) (v : α) (h : dictGet m k = some v) :
    dictSet m k v = m := by
  induction m with
  | nil => simp [dictGet] at h
  | cons p rest ih =>
    by_cases hp : (p.1 == k) = true
    · rcases p with ⟨pk, pv⟩
      have hp' : pk = k := by simpa using hp
      have hv : pv = v := by
        simpa [dictGet, List.find?, hp] using h
      simp [dictSet, hp, hp', hv]
    · have hpf : (p.1 == k) = false := by simpa using hp
      have h' : dictGet rest k = some v := by
        simpa [dictGet, List.find?, hpf] using h
      simp [dictSet, hpf, ih h']

theorem dictGet_mem {κ α : Type} [BEq κ] (m : List (κ × α)) (k : κ) (v : α)
    (h : dictGet m k = some v) : ∃ q ∈ m, q.2 = v := by
  unfold dictGet at h
  cases hf : m.find? (fun p => p.1 == k) with
  | none => simp [hf] at h
  | some q =>
    have hmem := List.mem_of_find?_eq_some hf
    rw [hf] at h
    simp only [Option.map] at h
    exact ⟨q, hmem, by simpa using h⟩

theorem dictSet_mem {κ α : Type} [BEq κ] (m : List (κ × α)) (k : κ) (v : α)
    (p : κ × α) (h : p ∈ dictSet m k v) : p = (k, v) ∨ p ∈ m := by
  induction m with
  | nil => simpa [dictSet] using h
  | cons q rest ih =>
    by_cases hq : (q.1 == k) = true
    · simp only [dictSet, hq, if_true, List.mem_cons] at h
      rcases h with h | h
      · exact Or.inl h
      · exact Or.inr (List.mem_cons_of_mem _ h)
    · simp only [dictSet, hq, if_false, Bool.false_eq_true, List.mem_cons] at h
      rcases h with h | h
      · exact Or.inr (by simp [h])
      · rcases ih h with h' | h'
        · exact Or.inl h'
        · exact Or.inr (List.mem_cons_of_mem _ h')

theorem applyHintPackages_idem (o : PackageOverride) (hint : String) :
    applyHintPackages (applyHintPackages o hint) hint = applyHintPackages o hint := by
  unfold applyHintPackages
  by_cases hs : (hint.splitOn "Suggest install:").length > 1
  · simp only [hs, if_true]
    by_cases hmem :
        ((hint.splitOn "Suggest install:").getLast?.getD "").trim ∈ o.system_packages
    · simp [hmem]
    · simp [hmem]
  · simp [hs]

theorem applyHintPackages_nodup (o : PackageOverride) (hint : String)
    (h : o.system_packages.Nodup) :
    (applyHintPackages o hint).system_packages.Nodup := by
  unfold applyHintPackages
  by_cases hs : (hint.splitOn "Suggest install:").length > 1
  · simp only [hs, if_true]
    by_cases hmem :
        ((hint.splitOn "Suggest install:").getLast?.getD "").trim ∈ o.system_packages
    · simp [hmem, h]
    · simp [hmem, List.nodup_append, h]
  · simpa [hs]

theorem applySuggestionBase_nodup (base : List (String × PackageOverride))
    (key hint : String)
    (hbase : ∀ p ∈ base, p.2.system_packages.Nodup) :
    ∀ p ∈ dictSet base key (applyHintPackages ((dictGet base key).getD {}) hint),
      p.2.system_packages.Nodup := by
  intro p hp
  rcases dictSet_mem _ _ _ _ hp with h | h
  · subst h
    apply applyHintPackages_nodup
    cases hg : dictGet base key with
    | none => simp [hg, PackageOverride.system_packages]
    | some o' =>
      obtain ⟨q, hqmem, hq2⟩ := dictGet_mem _ _ _ hg
      simpa [hg, hq2] using hbase q hqmem
  · exact hbase p h

theorem applySuggestion_eq_of_get (m : List (String × PackageOverride))
    (jobName hint : String) (o : PackageOverride) (h : dictGet m jobName = some o) :
    (applySuggestion m jobName hint).1 = dictSet m jobName (applyHintPackages o hint) := by
  simp [applySuggestion, h]

theorem applySuggestion_eq_of_get_low (m : List (String × PackageOverride))
    (jobName hint : String) (o : PackageOverride)
    (h1 : dictGet m jobName = none) (h2 : dictGet m (lowerStr jobName) = some o) :
    (applySuggestion m jobName hint).1
      = dictSet m (lowerStr jobName) (applyHintPackages o hint) := by
  simp [applySuggestion, h1, h2]

theorem applySuggestion_eq_of_none (m : List (String × PackageOverride))
    (jobName hint : String)
    (h1 : dictGet m jobName = none) (h2 : dictGet m (lowerStr jobName) = none) :
    (applySuggestion m jobName hint).1
      = dictSet (dictSet m jobName {}) jobName (applyHintPackages {} hint) := by
  simp [applySuggestion, h1, h2, dictGet_dictSet_self]

/-- C8: hint auto-application is idempotent on the overrides map —
applying the same suggestion twice leaves the map exactly as one
application does — and it never introduces a duplicate entry in an
override's system-package list (the system-recipe lists are untouched
because the recipe loop raises before appending anything). -/
theorem C8_apply_suggestion_idempotent (overrides : List (String × PackageOverride))
    (jobName hint : String) :
    (applySuggestion (applySuggestion overrides jobName hint).1 jobName hint).1
      = (applySuggestion overrides jobName hint).1
    ∧ ((∀ p ∈ overrides, p.2.system_packages.Nodup) →
        ∀ p ∈ (applySuggestion overrides jobName hint).1, p.2.system_packages.Nodup) := by
  constructor
  · by_cases h1 : (dictGet overrides jobName).isSome
    · obtain ⟨o0, ho0⟩ := Option.isSome_iff_exists.mp h1
      rw [applySuggestion_eq_of_get _ _ _ _ ho0]
      rw [applySuggestion_eq_of_get _ _ _ _ (dictGet_dictSet_self _ _ _)]
      rw [applyHintPackages_idem]
      exact dictSet_get_eq _ _ _ (dictGet_dictSet_self _ _ _)
    · have h1n : dictGet overrides jobName = none := by
        cases hx : dictGet overrides jobName
        · rfl
        · rw [hx] at h1; simp at h1
      by_cases h2 : (dictGet overrides (lowerStr jobName)).isSome
      · obtain ⟨o0, ho0⟩ := Option.isSome_iff_exists.mp h2
        have hne : ((jobName : String) == lowerStr jobName) = false := by
          rw [beq_eq_false_iff_ne]
          intro hcon
          rw [← hcon, h1n] at ho0
          exact Option.noConfusion ho0
        rw [applySuggestion_eq_of_get_low _ _ _ _ h1n ho0]
        have hstill : dictGet (dictSet overrides (lowerStr jobName)
            (applyHintPackages o0 hint)) jobName = none := by
          rw [dictGet_dictSet_ne _ _ _ _ hne]
          exact h1n
        rw [applySuggestion_eq_of_get_low _ _ _ _ hstill (dictGet_dictSet_self _ _ _)]
        rw [applyHintPackages_idem]
        exact dictSet_get_eq _ _ _ (dictGet_dictSet_self _ _ _)
      · have h2n : dictGet overrides (lowerStr jobName) = none := by
          cases hx : dictGet overrides (lowerStr jobName)
          · rfl
          · rw [hx] at h2; simp at h2
        rw [applySuggestion_eq_of_none _ _ _ h1n h2n]
        rw [applySuggestion_eq_of_get _ _ _ _ (dictGet_dictSet_self _ _ _)]
        rw [applyHintPackages_idem]
        exact dictSet_get_eq _ _ _ (dictGet_dictSet_self _ _ _)
  · intro hnd
    have hbase : ∀ p ∈ (if ((dictGet overrides jobName).isSome
        || (dictGet overrides (lowerStr jobName)).isSome) = true then overrides
        else dictSet overrides jobName {}), p.2.system_packages.Nodup := by
      intro p hp
      by_cases hb : ((dictGet overrides jobName).isSome
          || (dictGet overrides (lowerStr jobName)).isSome) = true
      · rw [if_pos hb] at hp
        exact hnd p hp
      · rw [if_neg hb] at hp
        rcases dictSet_mem _ _ _ _ hp with h | h
        · subst h
          simp [PackageOverride.system_packages]
        · exact hnd p h
    exact applySuggestionBase_nodup _ _ hint hbase

/-- Closed witness for `C8_apply_suggestion_idempotent`. -/
theorem C8_witness :
    ((applySuggestion (applySuggestion [] "pkg" exampleSuggestHint).1 "pkg"
        exampleSuggestHint).1 = (applySuggestion [] "pkg" exampleSuggestHint).1)
    ∧ (∀ p ∈ (applySuggestion [] "pkg" exampleSuggestHint).1, p.2.system_packages.Nodup) :=
  ⟨(C8_apply_suggestion_idempotent [] "pkg" exampleSuggestHint).1,
   (C8_apply_suggestion_idempotent [] "pkg" exampleSuggestHint).2 (by simp)⟩

/-- C4 counterexample: the cache-probe predicate of `_find_cached` is
not the same predicate as `WheelInfo.supports`: on the wheel a matching
cache entry stands for, `supports` raises `AttributeError` (it reads
`tag.python`, which `packaging.tags.Tag` does not have) while the
probe's inline tag test accepts the entry. -/
theorem C4_counterexample :
    WheelInfo.supports exampleCachedWheel "cp311" "manylinux2014_s390x"
      = .error "AttributeError: python"
    ∧ cachedTagOk exampleJob
        { interpreter := "cp311", abi := "cp311", platform := "manylinux2014_s390x" } = true
    ∧ (findCached [exampleCacheEntry] exampleJob).isSome = true := by
  refine ⟨rfl, rfl, rfl⟩

theorem classifyWheel_bad (cfg : RefineryConfig) (st : ResolverState) (w : WheelInfo)
    (h : parseVer w.version = none) :
    classifyWheel cfg st w = .error ("Invalid version string: " ++ w.version) := by
  unfold classifyWheel parseVersionE
  rw [h]
  rfl

theorem classify_fold_error (cfg : RefineryConfig) :
    ∀ (wheels : List WheelInfo) (st : ResolverState),
      (∃ w ∈ wheels, parseVer w.version = none) →
      ∃ msg, wheels.foldlM (fun s w => classifyWheel cfg s w) st = Except.error msg := by
  intro wheels
  induction wheels with
  | nil => intro st h; simp at h
  | cons w rest ih =>
    intro st h
    cases hw : classifyWheel cfg st w with
    | error e => exact ⟨e, by rw [List.foldlM_cons, hw]; rfl⟩
    | ok st2 =>
      rcases h with ⟨wb, hmem, hbad⟩
      rcases List.mem_cons.mp hmem with rfl | hmem2
      · rw [classifyWheel_bad cfg st wb hbad] at hw
        exact Except.noConfusion hw
      · obtain ⟨msg, hmsg⟩ := ih st2 ⟨wb, hmem2, hbad⟩
        exact ⟨msg, by rw [List.foldlM_cons, hw]; exact hmsg⟩

/-- C7 amended: an artifact version string that cannot be parsed during
resolution is fatal (`build_plan` raises rather than skipping the
artifact); an artifact whose filename or metadata cannot be parsed is
skipped by the scanner, which continues with the remaining files; and a
requirement that is unsatisfied, unpinned and without any candidate
version is appended to the plan's unsatisfiable list without aborting
resolution. -/
theorem C7_amended :
    (∀ (wheels : List WheelInfo) (cfg : RefineryConfig)
        (idx : Option (String → List Ver)) (d c : Nat),
        (∃ w ∈ wheels, parseVer w.version = none) →
        ∃ msg, buildPlan wheels cfg idx d c = .error msg)
    ∧ (∀ fs1 fs2 : List (Option WheelInfo),
        scanWheels (fs1 ++ none :: fs2) = scanWheels fs1 ++ scanWheels fs2)
    ∧ (∀ (cfg : RefineryConfig) (idx : Option (String → List Ver)) (st : ResolverState)
        (req : Requirement),
        reqSatisfies req (mergedVersions
          (verSetGet st.reusable_versions (lowerStr req.name))
          (verSetGet st.planned_versions (lowerStr req.name))) = false →
        pinnedVersion req = none →
        bestCandidate req (candidatePool cfg idx st.all_versions req) = none →
        resolveRequirement cfg idx st req = .ok { st with plan := { st.plan with
          missing_requirements := st.plan.missing_requirements ++ [reqStr req] } }) := by
  refine ⟨?_, ?_, ?_⟩
  · intro wheels cfg idx d c h
    obtain ⟨msg, hmsg⟩ := classify_fold_error cfg wheels { plan := {} } h
    exact ⟨msg, by simp only [buildPlan]; rw [hmsg]; rfl⟩
  · intro fs1 fs2
    simp [scanWheels]
  · intro cfg idx st req h1 h2 h3
    simp [resolveRequirement, h1, h2, h3]
    rfl

/-- Closed witness for `C7_amended`. -/
theorem C7_witness :
    (∃ msg, buildPlan [exampleBadWheel] exampleConfig none 2 1 = .error msg)
    ∧ (scanWheels ([some examplePureWheel] ++ none :: [])
        = scanWheels [some examplePureWheel] ++ scanWheels [])
    ∧ (resolveRequirement exampleConfig none { plan := {} } exampleUnsatReq
        = .ok { ({ plan := {} } : ResolverState) with plan := { ({} : Plan) with
            missing_requirements :=
              ([] : List String) ++ [reqStr exampleUnsatReq] } }) := by
  refine ⟨C7_amended.1 [exampleBadWheel] exampleConfig none 2 1
      ⟨exampleBadWheel, by simp, by rfl⟩,
    C7_amended.2.1 [some examplePureWheel] [], ?_⟩
  exact C7_amended.2.2 exampleConfig none { plan := {} } exampleUnsatReq rfl rfl rfl

theorem excInfo_hint (e : PyExc) (vn : String) : (excInfo e vn).2.2.1 = excHint e := by
  cases e <;> rfl

theorem failedRow_metaHint (runId : String) (job : BuildJob) (e : PyExc) (vn : String)
    (k : Nat) : (failedRow runId job e vn k).metaHint = excHint e := by
  cases e <;> rfl

theorem attemptBuild_fails (cfg : RefineryConfig) (st : BuilderState) (job : BuildJob)
    (ov : Option PackageOverride) (io : AttemptIO) (v : BuildVariant) (k : Nat)
    (h : attemptFailsNoHint io) :
    ∃ e ls, attemptBuild cfg st job ov io v k =
        (.error e, { st with
          attemptsRun := st.attemptsRun
            ++ [{ attempt := k, variant := v.name, override := ov }]
          logs := ls })
      ∧ excHint e = none := by
  rcases h with h | ⟨h1, h2⟩ | ⟨h1, h2, h3⟩ | ⟨h1, h2, h3, h4⟩
  · exact ⟨.attributeError "_hint_from_logs",
      st.logs ++ [job.name ++ "-" ++ job.version ++ "-attempt" ++ Nat.repr k
        ++ "-" ++ v.name ++ ".log"],
      by simp only [attemptBuild, runCapture, h], rfl⟩
  · exact ⟨.runtimeError ("No sdist found for " ++ job.source_spec),
      st.logs ++ [job.name ++ "-" ++ job.version ++ "-attempt" ++ Nat.repr k
        ++ "-" ++ v.name ++ ".log"],
      by simp only [attemptBuild, runCapture, h1, h2, Bool.not_false, if_true], rfl⟩
  · exact ⟨.attributeError "_hint_from_logs",
      st.logs ++ [job.name ++ "-" ++ job.version ++ "-attempt" ++ Nat.repr k
        ++ "-" ++ v.name ++ ".log"]
        ++ [job.name ++ "-" ++ job.version ++ "-attempt" ++ Nat.repr k
          ++ "-" ++ v.name ++ ".log"],
      by simp only [attemptBuild, runCapture, h1, h2, h3, Bool.not_true,
        Bool.false_eq_true, if_false], rfl⟩
  · exact ⟨.runtimeError ("Build finished but wheel not found for "
        ++ job.name ++ "==" ++ job.version),
      st.logs ++ [job.name ++ "-" ++ job.version ++ "-attempt" ++ Nat.repr k
        ++ "-" ++ v.name ++ ".log"]
        ++ [job.name ++ "-" ++ job.version ++ "-attempt" ++ Nat.repr k
          ++ "-" ++ v.name ++ ".log"],
      by simp only [attemptBuild, runCapture, h1, h2, h3, h4, Bool.not_true,
        Bool.not_false, Bool.false_eq_true, if_false, if_true], rfl⟩

theorem filterMap_range_lt (f : Nat → Nat) :
    ∀ (r a total : Nat), a + r = total + 1 →
      (List.range' a r).filterMap (fun k => if k < total then some (f k) else none)
        = (List.range' a (r - 1)).map f := by
  intro r
  induction r with
  | zero => intro a total _; simp
  | succ n ih =>
    intro a total h
    rw [List.range'_succ, List.filterMap_cons]
    cases n with
    | zero =>
      have ha : a = total := by omega
      simp [ha]
    | succ m =>
      have halt : a < total := by omega
      have h' : (a + 1) + (m + 1) = total + 1 := by omega
      simp only [halt, if_true]
      rw [ih (a + 1) total h']
      rw [show m + 1 + 1 - 1 = m + 1 from rfl, show m + 1 - 1 = m from rfl,
        List.range'_succ, List.map_cons]

theorem buildLoop_fails (cfg : RefineryConfig) (w : BuildWorld) (job : BuildJob)
    (ov : Option PackageOverride) (vs : List BuildVariant) (total : Nat) :
    ∀ (r a : Nat) (st : BuilderState) (le0 : Option PyExc),
      st.hasHistory = true →
      (∀ k, a ≤ k → k < a + r → attemptFailsNoHint (w.attempt k)) →
      ∃ le st' rows runs,
        buildLoop cfg w job ov vs total a r st le0 [] = (.exhausted le [], st')
        ∧ st'.events = st.events ++ rows
        ∧ rows.length = r
        ∧ (∀ row ∈ rows, row.status = "failed_attempt" ∧ row.metaHint = none
            ∧ row.name = job.name ∧ row.version = job.version)
        ∧ rows.map (fun row => row.metaAttempt)
            = (List.range' a r).map (fun k => some k)
        ∧ st'.sleeps = st.sleeps ++ (List.range' a r).filterMap
            (fun k => if k < total then some (backoffDelay cfg k) else none)
        ∧ st'.attemptsRun = st.attemptsRun ++ runs
        ∧ runs.length = r
        ∧ st'.attemptCounts = st.attemptCounts
        ∧ st'.overrides = st.overrides
        ∧ st'.copies = st.copies
        ∧ st'.hasHistory = true
        ∧ (r = 0 → le = le0)
        ∧ (1 ≤ r → le.isSome = true) := by
  intro r
  induction r with
  | zero =>
    intro a st le0 hh _
    exact ⟨le0, st, [], [], rfl, by simp, rfl, by simp, by simp, by simp, by simp, rfl,
      rfl, rfl, rfl, hh, fun _ => rfl, by omega⟩
  | succ n ih =>
    intro a st le0 hh hfail
    obtain ⟨e, ls0, heq, hhint⟩ := attemptBuild_fails cfg st job ov (w.attempt a)
      (vs.getD (min (a - 1) (vs.length - 1)) { name := "" }) a
      (hfail a (Nat.le_refl a) (by omega))
    have hstep : buildLoop cfg w job ov vs total a (n + 1) st le0 []
        = buildLoop cfg w job ov vs total (a + 1) n
            { st with
              events := st.events ++ [failedRow st.runId job e
                (vs.getD (min (a - 1) (vs.length - 1)) { name := "" }).name a]
              attemptsRun := st.attemptsRun ++ [AttemptRecord.mk a
                (vs.getD (min (a - 1) (vs.length - 1))
                  ({ name := "" } : BuildVariant)).name ov]
              logs := ls0
              sleeps := st.sleeps ++ (if a < total then [backoffDelay cfg a] else []) }
            (some e) [] := by
      simp only [buildLoop]
      rw [heq]
      simp only [excInfo_hint, hhint, Option.isSome_none, Bool.false_and,
        Bool.false_eq_true, if_false, recordIf, hh, if_true]
    obtain ⟨le, st', rows', runs', hrun, hev, hlen, hprops, hmap, hsleeps, hruns,
        hrunlen, hcounts, hov2, hcopies, hh3, hr0, hr1⟩ :=
      ih (a + 1)
        { st with
          events := st.events ++ [failedRow st.runId job e
            (vs.getD (min (a - 1) (vs.length - 1)) { name := "" }).name a]
          attemptsRun := st.attemptsRun ++ [AttemptRecord.mk a
            (vs.getD (min (a - 1) (vs.length - 1))
              ({ name := "" } : BuildVariant)).name ov]
          logs := ls0
          sleeps := st.sleeps ++ (if a < total then [backoffDelay cfg a] else []) }
        (some e) hh (fun k hk1 hk2 => hfail k (by omega) (by omega))
    refine ⟨le, st',
      failedRow st.runId job e
        (vs.getD (min (a - 1) (vs.length - 1)) { name := "" }).name a :: rows',
      AttemptRecord.mk a
        (vs.getD (min (a - 1) (vs.length - 1)) ({ name := "" } : BuildVariant)).name
        ov :: runs',
      hstep.trans hrun, ?_, ?_, ?_, ?_, ?_, ?_, ?_, hcounts, hov2, hcopies, hh3,
      ?_, ?_⟩
    · rw [hev]
      simp
    · simp [hlen]
    · intro row hr
      rcases List.mem_cons.mp hr with rfl | hr2
      · exact ⟨rfl, by rw [failedRow_metaHint]; exact hhint, rfl, rfl⟩
      · exact hprops row hr2
    · rw [List.range'_succ, List.map_cons, List.map_cons, hmap]
      rfl
    · rw [hsleeps, List.range'_succ, List.filterMap_cons]
      by_cases halt : a < total
      · simp only [halt, if_true]
        simp
      · simp only [halt, if_false]
        simp
    · rw [hruns]
      simp
    · simp [hrunlen]
    · intro hcon
      exact absurd hcon (Nat.succ_ne_zero n)
    · intro _
      cases n with
      | zero =>
        rw [hr0 rfl]
        rfl
      | succ m => exact hr1 (by omega)

theorem buildJob_all_fail (cfg : RefineryConfig) (st : BuilderState) (job : BuildJob)
    (cache : List CacheEntry) (w : BuildWorld)
    (hn : 1 ≤ cfg.max_attempts)
    (hh : st.hasHistory = true)
    (hcount : dictGet st.attemptCounts (lowerStr job.name, job.version) = none)
    (hov : overrideFor st job = none)
    (hcache : findCached cache job = none)
    (hfail : ∀ k, 1 ≤ k → k ≤ cfg.max_attempts → attemptFailsNoHint (w.attempt k)) :
    ∃ st' rows,
      buildJob cfg st job cache w
        = (.error (.runtimeError ("Exhausted " ++ Nat.repr cfg.max_attempts
            ++ " attempts for " ++ job.source_spec)), st')
      ∧ st'.events = st.events ++ rows
      ∧ rows.length = cfg.max_attempts
      ∧ (∀ row ∈ rows, row.status = "failed_attempt" ∧ row.metaHint = none)
      ∧ rows.map (fun row => row.metaAttempt)
          = (List.range' 1 cfg.max_attempts).map (fun k => some k)
      ∧ st'.sleeps = st.sleeps ++ (List.range' 1 (cfg.max_attempts - 1)).map
          (fun k => backoffDelay cfg k)
      ∧ st'.attemptsRun.length = st.attemptsRun.length + cfg.max_attempts
      ∧ st'.attemptCounts = st.attemptCounts := by
  have htot : max 1 cfg.max_attempts = cfg.max_attempts := Nat.max_eq_right hn
  obtain ⟨le, st', rows, runs, hrun, hev, hlen, hprops, hmap, hsleeps, hruns, hrunlen,
      hcounts, hov2, hcopies, hh3, hr0, hr1⟩ :=
    buildLoop_fails cfg w job none (variantsFor st job.name)
      (max 1 cfg.max_attempts) (max 1 cfg.max_attempts) 1 st none hh
      (fun k h1 h2 => hfail k h1 (by omega))
  have hbj : buildJob cfg st job cache w
      = (.error (.runtimeError ("Exhausted " ++ Nat.repr (max 1 cfg.max_attempts)
          ++ " attempts for " ++ job.source_spec)), st') := by
    simp only [buildJob, hcount, Option.getD_none]
    rw [if_neg (show ¬ (0 ≥ cfg.max_attempts) by omega)]
    rw [hov, hcache]
    simp [hrun]
  rw [htot] at hbj hlen hmap hsleeps hrunlen
  refine ⟨st', rows, hbj, hev, hlen,
    fun row hr => ⟨(hprops row hr).1, (hprops row hr).2.1⟩, hmap, ?_, ?_, hcounts⟩
  · rw [hsleeps, filterMap_range_lt (fun k => backoffDelay cfg k) cfg.max_attempts 1
      cfg.max_attempts (by omega)]
  · rw [hruns, List.length_append, hrunlen]

/-- C1 amended: with max attempts configured to 3 and every attempt
failing on a non-timeout failure, `build_job` records exactly 3
attempt-failure events (attempts 1, 2, 3, none carrying a hint), runs
exactly 3 attempts — the hint-derived extra attempt never runs, and no
hint-retry event is recorded — and raises the terminal exhaustion
error.  (A timeout failure instead aborts `build_job` with an
`AttributeError` before that attempt's event is recorded, see the
counterexample.) -/
theorem C1_amended (cfg : RefineryConfig) (st : BuilderState) (job : BuildJob)
    (cache : List CacheEntry) (w : BuildWorld)
    (h3 : cfg.max_attempts = 3)
    (hh : st.hasHistory = true)
    (hcount : dictGet st.attemptCounts (lowerStr job.name, job.version) = none)
    (hov : overrideFor st job = none)
    (hcache : findCached cache job = none)
    (hfail : ∀ k, 1 ≤ k → k ≤ 3 → attemptFailsNoHint (w.attempt k)) :
    ∃ st' rows,
      buildJob cfg st job cache w
        = (.error (.runtimeError ("Exhausted 3 attempts for " ++ job.source_spec)), st')
      ∧ st'.events = st.events ++ rows
      ∧ rows.length = 3
      ∧ (∀ row ∈ rows, row.status = "failed_attempt" ∧ row.metaHint = none)
      ∧ rows.map (fun row => row.metaAttempt) = [some 1, some 2, some 3]
      ∧ st'.attemptsRun.length = st.attemptsRun.length + 3
      ∧ st'.attemptCounts = st.attemptCounts := by
  obtain ⟨st', rows, hbj, hev, hlen, hprops, hmap, hsleeps, hruncount, hcounts⟩ :=
    buildJob_all_fail cfg st job cache w (by omega) hh hcount hov hcache
      (fun k h1 h2 => hfail k h1 (by omega))
  rw [h3] at hbj hlen hmap hruncount
  have hmsg : ("Exhausted " ++ Nat.repr 3) ++ " attempts for " = "Exhausted 3 attempts for " := by
    decide
  rw [hmsg] at hbj
  refine ⟨st', rows, hbj, hev, hlen, hprops, ?_, hruncount, hcounts⟩
  rw [hmap]
  rfl

/-- Closed witness for `C1_amended`. -/
theorem C1_witness :
    ∃ st' rows,
      buildJob exampleConfig {} exampleJob [] exampleWorldAllFail
        = (.error (.runtimeError ("Exhausted 3 attempts for "
            ++ exampleJob.source_spec)), st')
      ∧ st'.events = ({} : BuilderState).events ++ rows
      ∧ rows.length = 3
      ∧ (∀ row ∈ rows, row.status = "failed_attempt" ∧ row.metaHint = none)
      ∧ rows.map (fun row => row.metaAttempt) = [some 1, some 2, some 3]
      ∧ st'.attemptsRun.length = ({} : BuilderState).attemptsRun.length + 3
      ∧ st'.attemptCounts = ({} : BuilderState).attemptCounts :=
  C1_amended exampleConfig {} exampleJob [] exampleWorldAllFail rfl rfl rfl rfl rfl
    (fun _ _ _ => Or.inl rfl)

/-- C6: between consecutive failed attempts — and never after the last
attempt — the builder sleeps exactly
`min(backoff_max, backoff_base * 2 ** (attempt - 1))` seconds: a run
whose attempts all fail (without timeout) sleeps exactly the delays for
attempts `1 .. max_attempts - 1`; with base 5 and max 60 the first
three delays are 5, 10 and 20 seconds, every delay is capped at 60
seconds, and the cap binds from the fifth delay on. -/
theorem C6_backoff (cfg : RefineryConfig) (st : BuilderState) (job : BuildJob)
    (cache : List CacheEntry) (w : BuildWorld)
    (hn : 1 ≤ cfg.max_attempts)
    (hh : st.hasHistory = true)
    (hcount : dictGet st.attemptCounts (lowerStr job.name, job.version) = none)
    (hov : overrideFor st job = none)
    (hcache : findCached cache job = none)
    (hfail : ∀ k, 1 ≤ k → k ≤ cfg.max_attempts → attemptFailsNoHint (w.attempt k))
    (hbase : cfg.attempt_backoff_base = 5)
    (hmax : cfg.attempt_backoff_max = 60) :
    ((buildJob cfg st job cache w).2).sleeps
        = st.sleeps ++ (List.range' 1 (cfg.max_attempts - 1)).map
            (fun k => backoffDelay cfg k)
    ∧ backoffDelay cfg 1 = 5
    ∧ backoffDelay cfg 2 = 10
    ∧ backoffDelay cfg 3 = 20
    ∧ (∀ k, backoffDelay cfg k ≤ 60)
    ∧ (∀ k, 5 ≤ k → backoffDelay cfg k = 60) := by
  obtain ⟨st', rows, hbj, hev, hlen, hprops, hmap, hsleeps, hruncount, hcounts⟩ :=
    buildJob_all_fail cfg st job cache w hn hh hcount hov hcache hfail
  refine ⟨?_, ?_, ?_, ?_, ?_, ?_⟩
  · rw [hbj]
    exact hsleeps
  · simp [backoffDelay, hbase, hmax]
  · simp [backoffDelay, hbase, hmax]
  · simp [backoffDelay, hbase, hmax]
  · intro k
    calc backoffDelay cfg k ≤ cfg.attempt_backoff_max := Nat.min_le_left _ _
      _ = 60 := hmax
  · intro k hk
    have h16 : (16 : Nat) ≤ 2 ^ (k - 1) := by
      calc (16 : Nat) = 2 ^ 4 := rfl
        _ ≤ 2 ^ (k - 1) := Nat.pow_le_pow_right (by omega) (by omega)
    have h80 : 80 ≤ cfg.attempt_backoff_base * 2 ^ (k - 1) := by
      rw [hbase]
      calc (80 : Nat) = 5 * 16 := rfl
        _ ≤ 5 * 2 ^ (k - 1) := Nat.mul_le_mul_left 5 h16
    unfold backoffDelay
    rw [hmax]
    exact Nat.min_eq_left (Nat.le_trans (by omega) h80)

/-- Closed witness for `C6_backoff`. -/
theorem C6_witness :
    ((buildJob exampleConfig {} exampleJob [] exampleWorldAllFail).2).sleeps
        = ({} : BuilderState).sleeps ++ (List.range' 1 (exampleConfig.max_attempts - 1)).map
            (fun k => backoffDelay exampleConfig k)
    ∧ backoffDelay exampleConfig 1 = 5
    ∧ backoffDelay exampleConfig 2 = 10
    ∧ backoffDelay exampleConfig 3 = 20
    ∧ (∀ k, backoffDelay exampleConfig k ≤ 60)
    ∧ (∀ k, 5 ≤ k → backoffDelay exampleConfig k = 60) :=
  C6_backoff exampleConfig {} exampleJob [] exampleWorldAllFail (by decide) rfl rfl rfl rfl
    (fun _ _ _ => Or.inl rfl) rfl rfl

theorem findCached_of_mem (cache : List CacheEntry) (job : BuildJob)
    (hmem : ∃ e ∈ cache, cacheMatches job e = true) :
    ∃ entry, findCached cache job = some entry ∧ entry ∈ cache
      ∧ cacheMatches job entry = true := by
  have h : (cache.find? (fun e => cacheMatches job e)).isSome := by
    rw [List.find?_isSome]
    exact hmem
  obtain ⟨entry, he⟩ := Option.isSome_iff_exists.mp h
  exact ⟨entry, he, List.mem_of_find?_eq_some he, List.find?_some he⟩

/-- C4 amended: when the cache holds an entry whose parsed name and
version match the job and whose tags satisfy the job's target under the
builder's own inline tag test (`cacheMatches`, not `WheelInfo.supports`,
which raises), `build_job` copies the first such entry to the output
location and returns a cached result: no attempt-counter change, no log
file, no attempt run, no sleep, and the only new event is the single
`cached` row. -/
theorem C4_amended (cfg : RefineryConfig) (st : BuilderState) (job : BuildJob)
    (cache : List CacheEntry) (w : BuildWorld)
    (hn : 1 ≤ cfg.max_attempts)
    (hh : st.hasHistory = true)
    (hcount : dictGet st.attemptCounts (lowerStr job.name, job.version) = none)
    (hov : overrideFor st job = none)
    (hmem : ∃ e ∈ cache, cacheMatches job e = true) :
    ∃ entry row,
      entry ∈ cache ∧ cacheMatches job entry = true
      ∧ buildJob cfg st job cache w
          = (.ok ({ name := job.name, version := job.version, status := "cached"
                    path := some entry.filename
                    detail := some "Reused cached wheel" }, true),
             { st with copies := st.copies ++ [entry.filename]
                       events := st.events ++ [row] })
      ∧ row.status = "cached"
      ∧ row.wheel_path = some entry.filename
      ∧ row.cached = true := by
  obtain ⟨entry, hfind, hmemc, hpred⟩ := findCached_of_mem cache job hmem
  refine ⟨entry,
    { run_id := st.runId, name := job.name, version := job.version
      python_tag := job.python_tag, platform_tag := job.platform_tag
      status := "cached", source_spec := some job.source_spec
      detail := some "Reused cached wheel", wheel_path := some entry.filename
      cached := true, metaRecipeRan := some false },
    hmemc, hpred, ?_, rfl, rfl, rfl⟩
  simp only [buildJob, hcount, Option.getD_none]
  rw [if_neg (show ¬ (0 ≥ cfg.max_attempts) from by omega)]
  rw [hov, hfind]
  simp [recordIf, hh, detailWithOverrides]

/-- Closed witness for `C4_amended`. -/
theorem C4_witness :
    ∃ entry row,
      entry ∈ [exampleCacheEntry] ∧ cacheMatches exampleJob entry = true
      ∧ buildJob exampleConfig {} exampleJob [exampleCacheEntry] exampleWorldAllFail
          = (.ok ({ name := exampleJob.name, version := exampleJob.version, status := "cached"
                    path := some entry.filename
                    detail := some "Reused cached wheel" }, true),
             { ({} : BuilderState) with
                 copies := ({} : BuilderState).copies ++ [entry.filename]
                 events := ({} : BuilderState).events ++ [row] })
      ∧ row.status = "cached"
      ∧ row.wheel_path = some entry.filename
      ∧ row.cached = true :=
  C4_amended exampleConfig {} exampleJob [exampleCacheEntry] exampleWorldAllFail
    (by decide) rfl rfl rfl ⟨exampleCacheEntry, by decide, by decide⟩

theorem mem_insertSorted (a b : String) (l : List String) :
    a ∈ insertSorted b l ↔ a = b ∨ a ∈ l := by
  induction l with
  | nil => simp [insertSorted]
  | cons c cs ih =>
    simp only [insertSorted]
    by_cases h : b ≤ c
    · simp [h]
    · simp only [h, if_false, List.mem_cons, ih]
      tauto

theorem mem_sortStrings (a : String) (l : List String) : a ∈ sortStrings l ↔ a ∈ l := by
  induction l with
  | nil => simp [sortStrings]
  | cons c cs ih => simp [sortStrings, mem_insertSorted, ih]

theorem mem_missingPythonDeps (wheels : List WheelInfo) (planned : List BuildJob) (s : String)
    (h : s ∈ missingPythonDeps wheels planned) :
    (∃ w ∈ wheels, ∃ r ∈ w.requires_dist, s = lowerStr r.name)
    ∧ s ∉ wheels.map (fun w => lowerStr w.name)
    ∧ s ∉ planned.map (fun job => lowerStr job.name) := by
  unfold missingPythonDeps at h
  rw [mem_sortStrings, List.mem_dedup, List.mem_filter] at h
  obtain ⟨hmem, hpred⟩ := h
  rw [List.mem_flatMap] at hmem
  obtain ⟨w, hw, hs⟩ := hmem
  rw [List.mem_map] at hs
  obtain ⟨r, hr, hs⟩ := hs
  simp only [Bool.and_eq_true, Bool.not_eq_true'] at hpred
  refine ⟨⟨w, hw, r, hr, hs.symm⟩, ?_, ?_⟩
  · intro hc
    have h' : (wheels.map (fun w => lowerStr w.name)).contains s = true :=
      List.elem_iff.mpr hc
    rw [hpred.1] at h'
    exact Bool.false_ne_true h'
  · intro hc
    have h' : (planned.map (fun job => lowerStr job.name)).contains s = true :=
      List.elem_iff.mpr hc
    rw [hpred.2] at h'
    exact Bool.false_ne_true h'

/-- C9 amended: with an index client present and a positive depth
budget, `_expand_dependencies` appends one batch of synthetic jobs to
both `dependency_expansions` and `to_build`, leaving `reusable` and
`missing_requirements` untouched.  At most `max_dep_attempts` jobs are
synthesized; each has version "latest", reason "dependency expansion",
depth 1, and parents equal to the deduplicated names of the in-budget
(depth `< max_dep_depth`) to-build jobs; each job's name is a lowered
requirement name drawn from the scanned artifacts' metadata (not from
the requesting jobs), absent from the scanned wheel names and from the
in-budget to-build job names. -/
theorem C9_amended (plan : Plan) (wheels : List WheelInfo) (cfg : RefineryConfig)
    (f : String → List Ver) (d c : Nat) (hd : 1 ≤ d) :
    ∃ newJobs,
      (expandDependencies plan wheels cfg (some f) d c).to_build
          = plan.to_build ++ newJobs
      ∧ (expandDependencies plan wheels cfg (some f) d c).dependency_expansions
          = plan.dependency_expansions ++ newJobs
      ∧ (expandDependencies plan wheels cfg (some f) d c).reusable = plan.reusable
      ∧ (expandDependencies plan wheels cfg (some f) d c).missing_requirements
          = plan.missing_requirements
      ∧ newJobs.length ≤ c
      ∧ ∀ job ∈ newJobs,
          job.version = "latest"
          ∧ job.reason = "dependency expansion"
          ∧ job.depth = 1
          ∧ job.parents = ((plan.to_build.filter (fun j => j.depth < d)).map
              (fun j => j.name)).dedup
          ∧ (∃ w ∈ wheels, ∃ r ∈ w.requires_dist, job.name = lowerStr r.name)
          ∧ job.name ∉ wheels.map (fun w => lowerStr w.name)
          ∧ job.name ∉ (plan.to_build.filter (fun j => j.depth < d)).map
              (fun j => lowerStr j.name) := by
  have hd0 : (d == 0) = false := by
    rw [beq_eq_false_iff_ne]
    omega
  by_cases h1 : (plan.to_build.filter (fun job => job.depth < d)).isEmpty
  · refine ⟨[], ?_, ?_, ?_, ?_, by simp, fun job hj => absurd hj (List.not_mem_nil job)⟩
      <;> simp [expandDependencies, hd0, h1]
  · by_cases h2 :
        (missingPythonDeps wheels (plan.to_build.filter (fun job => job.depth < d))).isEmpty
    · refine ⟨[], ?_, ?_, ?_, ?_, by simp, fun job hj => absurd hj (List.not_mem_nil job)⟩
        <;> simp [expandDependencies, hd0, h1, h2]
    · refine ⟨(buildJobsForMissing
          (missingPythonDeps wheels (plan.to_build.filter (fun job => job.depth < d)))
          cfg.python_tag cfg.target_platform_tag "dependency expansion" c 1).map
            (fun exp => { exp with parents := ((plan.to_build.filter
                (fun job => job.depth < d)).map (fun job => job.name)).dedup }),
        ?_, ?_, ?_, ?_, ?_, ?_⟩
      · simp [expandDependencies, hd0, h1, h2]
      · simp [expandDependencies, hd0, h1, h2]
      · simp [expandDependencies, hd0, h1, h2]
      · simp [expandDependencies, hd0, h1, h2]
      · rw [List.length_map]
        unfold buildJobsForMissing
        rw [List.length_map]
        exact List.length_take_le c _
      · intro job hjob
        rw [List.mem_map] at hjob
        obtain ⟨exp, hexp, hjobeq⟩ := hjob
        unfold buildJobsForMissing at hexp
        rw [List.mem_map] at hexp
        obtain ⟨nm, hnm, hexpeq⟩ := hexp
        have hnm2 : nm ∈ missingPythonDeps wheels
            (plan.to_build.filter (fun job => job.depth < d)) :=
          List.mem_of_mem_take hnm
        obtain ⟨hsrc, hnotw, hnotp⟩ := mem_missingPythonDeps _ _ _ hnm2
        subst hjobeq
        subst hexpeq
        exact ⟨rfl, rfl, rfl, rfl, hsrc, hnotw, hnotp⟩

/-- Closed witness for `C9_amended`. -/
theorem C9_witness :
    ∃ newJobs,
      (expandDependencies examplePlanOneJob [exampleReqWheel] exampleConfig
          (some exampleIndexFn) 2 1).to_build
          = examplePlanOneJob.to_build ++ newJobs
      ∧ (expandDependencies examplePlanOneJob [exampleReqWheel] exampleConfig
          (some exampleIndexFn) 2 1).dependency_expansions
          = examplePlanOneJob.dependency_expansions ++ newJobs
      ∧ (expandDependencies examplePlanOneJob [exampleReqWheel] exampleConfig
          (some exampleIndexFn) 2 1).reusable = examplePlanOneJob.reusable
      ∧ (expandDependencies examplePlanOneJob [exampleReqWheel] exampleConfig
          (some exampleIndexFn) 2 1).missing_requirements
          = examplePlanOneJob.missing_requirements
      ∧ newJobs.length ≤ 1
      ∧ ∀ job ∈ newJobs,
          job.version = "latest"
          ∧ job.reason = "dependency expansion"
          ∧ job.depth = 1
          ∧ job.parents = ((examplePlanOneJob.to_build.filter (fun j => j.depth < 2)).map
              (fun j => j.name)).dedup
          ∧ (∃ w ∈ [exampleReqWheel], ∃ r ∈ w.requires_dist, job.name = lowerStr r.name)
          ∧ job.name ∉ [exampleReqWheel].map (fun w => lowerStr w.name)
          ∧ job.name ∉ (examplePlanOneJob.to_build.filter (fun j => j.depth < 2)).map
              (fun j => lowerStr j.name) :=
  C9_amended examplePlanOneJob [exampleReqWheel] exampleConfig exampleIndexFn 2 1 (by omega)

end Refinery
